import Mathlib

/-!
Verification of the statsite metric sink (package `statsite`) and its
delivery engine: the bounded non-blocking metric queue, the background
flush worker and its connection lifecycle, and the wire-line formatter.

The Go source is embedded shallowly:

* `flattenKey` / `flattenKeyLabels` follow `Sink.flattenKey` and
  `Sink.flattenKeyLabels` (`strings.Join` with `"."`, then `strings.Map`
  replacing `:` and space with `_`; the labels loop appends each label
  Value to the key parts).
* `formatFloat6` embeds `fmt.Sprintf("%f", val)` on the (exactly
  representable) float value, modelled as a rational: fixed-point with six
  fractional digits, rounding half to even as Go's fmt does.
* `SinkState` carries the channel buffer (`queue`, capacity 4096), the
  closed flag of the channel, whether the worker has executed
  `s.metricQueue = nil` (`queueNil`), the worker phase (the CONNECT /
  streaming-select / WAIT / QUIT regions of `Sink.flushMetrics`), the
  `bufio.Writer` contents (`buffer`), the lines written to the writer on
  the current connection (`session`), the bytes flushed to the transport
  (`wire`), and ghost fields `history` (every line handed to `pushMetric`)
  and `dials` (number of `net.Dial` calls).
* `pushMetric` embeds the non-blocking select-send, with Go channel
  semantics: send on a nil channel is never ready (default taken), send on
  a closed channel panics, send on a full channel takes the default.
* `Shutdown` embeds `close(s.metricQueue)`: closing a closed or nil
  channel panics.
* `Step` is the labelled transition relation: producer actions (emit,
  shutdown) interleaved with the worker actions of `flushMetrics`
  (dial outcome, receive-and-write outcome, ticker flush outcome,
  backoff drain, queue-closed observation, backoff timer expiry).
-/

namespace Statsite

/-- A metric label; per the source only `Value` is used in formatting. -/
structure Label where
  Name : String
  Value : String
deriving DecidableEq

/-- Capacity of the metric queue, from `make(chan string, 4096)`. -/
def queueCapacity : Nat := 4096

/-- Backoff wait in seconds, from `time.After(time.Duration(5) * time.Second)`. -/
def backoffWaitSeconds : Nat := 5

/-- Forced flush period in milliseconds, from `flushInterval = 100 * time.Millisecond`. -/
def flushIntervalMillis : Nat := 100

/-- Embeds the rune substitution of `Sink.flattenKey`: the `switch` maps
`:` and space to `_` and leaves every other rune unchanged. -/
def sanitizeChar (r : Char) : Char :=
  if r = ':' then '_'
  else if r = ' ' then '_'
  else r

/-- Embeds `strings.Map` for a total rune mapping (the source mapping
never drops a rune). -/
def goStringsMap (f : Char → Char) (s : String) : String :=
  ⟨s.data.map f⟩

/-- Embeds `Sink.flattenKey`: join the parts with `"."`, then map
`sanitizeChar` over the joined string. -/
def flattenKey (parts : List String) : String :=
  goStringsMap sanitizeChar (String.intercalate "." parts)

/-- Embeds `Sink.flattenKeyLabels`: the loop appends each label Value to
the parts, then flattens. -/
def flattenKeyLabels (parts : List String) (labels : List Label) : String :=
  flattenKey (labels.foldl (fun ps l => ps ++ [l.Value]) parts)

/-- Decimal digit character for `d % 10`. -/
def digitChar (d : Nat) : Char :=
  match d % 10 with
  | 0 => '0'
  | 1 => '1'
  | 2 => '2'
  | 3 => '3'
  | 4 => '4'
  | 5 => '5'
  | 6 => '6'
  | 7 => '7'
  | 8 => '8'
  | _ => '9'

/-- ASCII digit test. -/
def isAsciiDigit (c : Char) : Bool :=
  decide ('0' ≤ c) && decide (c ≤ '9')

/-- The six decimal digits of `n % 10^6`, most significant first. -/
def frac6 (n : Nat) : String :=
  ⟨(List.range 6).map fun i => digitChar (n / 10 ^ (5 - i))⟩

/-- Rounds a rational to the nearest integer, ties to even, as Go's
decimal conversion in `fmt` does. -/
def roundHalfEven (q : ℚ) : ℤ :=
  if q - ⌊q⌋ < 1/2 then ⌊q⌋
  else if 1/2 < q - ⌊q⌋ then ⌊q⌋ + 1
  else if ⌊q⌋ % 2 = 0 then ⌊q⌋ else ⌊q⌋ + 1

/-- Fixed-point rendering of a nonnegative value with six fractional
digits: scale by `10^6`, round, then print integer part, a dot, and the
six fractional digits. -/
def formatNonneg6 (q : ℚ) : String :=
  let n := (roundHalfEven (q * 1000000)).toNat
  toString (n / 1000000) ++ "." ++ frac6 (n % 1000000)

/-- Embeds `fmt.Sprintf("%f", val)`: `%f` with default precision renders
the float value in fixed point with six fractional digits. -/
def formatFloat6 (q : ℚ) : String :=
  if q < 0 then "-" ++ formatNonneg6 (-q) else formatNonneg6 q

/-- Embeds `fmt.Sprintf("%s:%f|" ++ suf ++ "\n", flatKey, val)`. -/
def sprintfMetric (flatKey : String) (val : ℚ) (suf : String) : String :=
  flatKey ++ ":" ++ formatFloat6 val ++ "|" ++ suf ++ "\n"

/-- The line built by `Sink.SetGauge` before it is pushed. -/
def SetGaugeLine (key : List String) (val : ℚ) : String :=
  sprintfMetric (flattenKey key) val "g"

/-- The line built by `Sink.SetGaugeWithLabels`. -/
def SetGaugeWithLabelsLine (key : List String) (val : ℚ) (labels : List Label) : String :=
  sprintfMetric (flattenKeyLabels key labels) val "g"

/-- The line built by `Sink.EmitKey`. -/
def EmitKeyLine (key : List String) (val : ℚ) : String :=
  sprintfMetric (flattenKey key) val "kv"

/-- The line built by `Sink.IncrCounter`. -/
def IncrCounterLine (key : List String) (val : ℚ) : String :=
  sprintfMetric (flattenKey key) val "c"

/-- The line built by `Sink.IncrCounterWithLabels`. -/
def IncrCounterWithLabelsLine (key : List String) (val : ℚ) (labels : List Label) : String :=
  sprintfMetric (flattenKeyLabels key labels) val "c"

/-- The line built by `Sink.AddSample`. -/
def AddSampleLine (key : List String) (val : ℚ) : String :=
  sprintfMetric (flattenKey key) val "ms"

/-- The line built by `Sink.AddSampleWithLabels`. -/
def AddSampleWithLabelsLine (key : List String) (val : ℚ) (labels : List Label) : String :=
  sprintfMetric (flattenKeyLabels key labels) val "ms"

/-- Worker phase: the control regions of `Sink.flushMetrics` (CONNECT,
the streaming select loop, the WAIT drain loop, QUIT). -/
inductive Phase
  | connecting
  | streaming
  | backoff
  | terminated
deriving DecidableEq

/-- Result of one `pushMetric` call: the send case fired, the default
case fired (line dropped), or the send panicked (closed channel). -/
inductive PushResult
  | enqueued
  | dropped
  | panicked
deriving DecidableEq

/-- State of one Sink: channel contents and flags, worker phase, writer
buffer, per-connection written lines, transport bytes, and ghost trace
fields. -/
structure SinkState where
  addr : String
  queue : List String
  closed : Bool
  queueNil : Bool
  phase : Phase
  buffer : List String
  session : List String
  wire : List String
  history : List String
  dials : Nat
  crashed : Bool
deriving DecidableEq

/-- State made by `NewSink`: empty queue of capacity 4096, worker spawned
at its CONNECT label, nothing dialed, nothing written. -/
def initState (addr : String) : SinkState :=
  { addr := addr
    queue := []
    closed := false
    queueNil := false
    phase := Phase.connecting
    buffer := []
    session := []
    wire := []
    history := []
    dials := 0
    crashed := false }

/-- Embeds `NewSink`: build the Sink, spawn the worker, return `(s, nil)`;
no validation and no connection attempt happen here. -/
def NewSink (addr : String) : SinkState × Option String :=
  (initState addr, none)

/-- Embeds `Sink.pushMetric`: `select { case s.metricQueue <- m: default: }`.
With a nil channel the send is never ready, so the default fires; with a
closed channel the send proceeds and panics; with a full channel the
default fires; otherwise the line is enqueued. -/
def pushMetric (s : SinkState) (m : String) : SinkState × PushResult :=
  if s.queueNil then
    ({ s with history := s.history ++ [m] }, PushResult.dropped)
  else if s.closed then
    ({ s with history := s.history ++ [m], crashed := true }, PushResult.panicked)
  else if s.queue.length < queueCapacity then
    ({ s with queue := s.queue ++ [m], history := s.history ++ [m] }, PushResult.enqueued)
  else
    ({ s with history := s.history ++ [m] }, PushResult.dropped)

/-- Embeds `Sink.Shutdown`: `close(s.metricQueue)`. Closing a nil or an
already-closed channel panics. -/
def Shutdown (s : SinkState) : SinkState :=
  if s.queueNil || s.closed then { s with crashed := true }
  else { s with closed := true }

/-- Transition labels: producer actions and the worker actions of
`Sink.flushMetrics`. -/
inductive Act
  | emit (m : String)
  | shutdown
  | dialOk
  | dialFail
  | writeOk (m : String)
  | writeFail (m : String)
  | recvClosed
  | tickOk
  | tickFail
  | drain (m : String)
  | drainClosed
  | backoffTimer
deriving DecidableEq

/-- Labelled transition relation of one Sink: emit and shutdown calls from
application threads, interleaved with the worker's `flushMetrics` steps.
Connection, write and flush outcomes are nondeterministic (the network is
the environment); a crashed (panicked) program takes no further step. -/
inductive Step : SinkState → Act → SinkState → Prop
  | emit (s : SinkState) (m : String) (h : s.crashed = false) :
      Step s (Act.emit m) (pushMetric s m).1
  | shutdown (s : SinkState) (h : s.crashed = false) :
      Step s Act.shutdown (Shutdown s)
  | dialOk (s : SinkState) (h : s.crashed = false) (hp : s.phase = Phase.connecting) :
      Step s Act.dialOk
        { s with phase := Phase.streaming, session := [], buffer := [],
                 dials := s.dials + 1 }
  | dialFail (s : SinkState) (h : s.crashed = false) (hp : s.phase = Phase.connecting) :
      Step s Act.dialFail
        { s with phase := Phase.backoff, dials := s.dials + 1 }
  | writeOk (s : SinkState) (m : String) (q : List String) (h : s.crashed = false)
      (hp : s.phase = Phase.streaming) (hq : s.queue = m :: q) :
      Step s (Act.writeOk m)
        { s with queue := q, session := s.session ++ [m], buffer := s.buffer ++ [m] }
  | writeFail (s : SinkState) (m : String) (q : List String) (h : s.crashed = false)
      (hp : s.phase = Phase.streaming) (hq : s.queue = m :: q) :
      Step s (Act.writeFail m)
        { s with queue := q, phase := Phase.backoff }
  | recvClosed (s : SinkState) (h : s.crashed = false) (hp : s.phase = Phase.streaming)
      (hq : s.queue = []) (hc : s.closed = true) :
      Step s Act.recvClosed
        { s with phase := Phase.terminated, queueNil := true }
  | tickOk (s : SinkState) (h : s.crashed = false) (hp : s.phase = Phase.streaming) :
      Step s Act.tickOk
        { s with wire := s.wire ++ s.buffer, buffer := [] }
  | tickFail (s : SinkState) (h : s.crashed = false) (hp : s.phase = Phase.streaming) :
      Step s Act.tickFail
        { s with phase := Phase.backoff }
  | drain (s : SinkState) (m : String) (q : List String) (h : s.crashed = false)
      (hp : s.phase = Phase.backoff) (hq : s.queue = m :: q) :
      Step s (Act.drain m) { s with queue := q }
  | drainClosed (s : SinkState) (h : s.crashed = false) (hp : s.phase = Phase.backoff)
      (hq : s.queue = []) (hc : s.closed = true) :
      Step s Act.drainClosed
        { s with phase := Phase.terminated, queueNil := true }
  | backoffTimer (s : SinkState) (h : s.crashed = false) (hp : s.phase = Phase.backoff) :
      Step s Act.backoffTimer { s with phase := Phase.connecting }

/-- One step under some label. -/
def StepAny (s s' : SinkState) : Prop := ∃ a, Step s a s'

/-- Reachability from a freshly constructed Sink. -/
def Reachable (addr : String) (s : SinkState) : Prop :=
  Relation.ReflTransGen StepAny (initState addr) s

/-- Fields of the state that `pushMetric` never touches. -/
lemma pushMetric_fst_frame (s : SinkState) (m : String) :
    (pushMetric s m).1.phase = s.phase ∧ (pushMetric s m).1.closed = s.closed ∧
    (pushMetric s m).1.queueNil = s.queueNil ∧ (pushMetric s m).1.dials = s.dials ∧
    (pushMetric s m).1.wire = s.wire ∧ (pushMetric s m).1.session = s.session ∧
    (pushMetric s m).1.buffer = s.buffer := by
  unfold pushMetric
  split
  · exact ⟨rfl, rfl, rfl, rfl, rfl, rfl, rfl⟩
  · split
    · exact ⟨rfl, rfl, rfl, rfl, rfl, rfl, rfl⟩
    · split
      · exact ⟨rfl, rfl, rfl, rfl, rfl, rfl, rfl⟩
      · exact ⟨rfl, rfl, rfl, rfl, rfl, rfl, rfl⟩

/-- Every `pushMetric` call records its line in the ghost history. -/
lemma pushMetric_fst_history (s : SinkState) (m : String) :
    (pushMetric s m).1.history = s.history ++ [m] := by
  unfold pushMetric
  split
  · rfl
  · split
    · rfl
    · split
      · rfl
      · rfl

/-- The queue after `pushMetric` is unchanged or gains the line at the tail. -/
lemma pushMetric_fst_queue (s : SinkState) (m : String) :
    (pushMetric s m).1.queue = s.queue ∨
      ((pushMetric s m).1.queue = s.queue ++ [m] ∧
        s.queue.length < queueCapacity) := by
  unfold pushMetric
  split
  · exact Or.inl rfl
  · split
    · exact Or.inl rfl
    · split
      · next hlt => exact Or.inr ⟨rfl, hlt⟩
      · exact Or.inl rfl

/-- Fields of the state that `Shutdown` never touches. -/
lemma Shutdown_frame (s : SinkState) :
    (Shutdown s).phase = s.phase ∧ (Shutdown s).queue = s.queue ∧
    (Shutdown s).queueNil = s.queueNil ∧ (Shutdown s).dials = s.dials ∧
    (Shutdown s).wire = s.wire ∧ (Shutdown s).session = s.session ∧
    (Shutdown s).buffer = s.buffer ∧ (Shutdown s).history = s.history := by
  unfold Shutdown
  split
  · exact ⟨rfl, rfl, rfl, rfl, rfl, rfl, rfl, rfl⟩
  · exact ⟨rfl, rfl, rfl, rfl, rfl, rfl, rfl, rfl⟩

/-- Induction principle for invariants of reachable states. -/
lemma reachable_invariant (P : SinkState → Prop)
    (hinit : ∀ addr, P (initState addr))
    (hstep : ∀ s a s', Step s a s' → P s → P s') :
    ∀ addr s, Reachable addr s → P s := by
  intro addr s h
  induction h with
  | refl => exact hinit addr
  | tail _ hs ih =>
      obtain ⟨a, ha⟩ := hs
      exact hstep _ a _ ha ih

/-- No step grows the queue beyond the channel capacity. -/
lemma step_queue_le {s : SinkState} {a : Act} {s' : SinkState} (hs : Step s a s')
    (hq : s.queue.length ≤ queueCapacity) : s'.queue.length ≤ queueCapacity := by
  cases hs with
  | emit m h =>
      rcases pushMetric_fst_queue s m with heq | ⟨heq, hlt⟩
      · rw [heq]; exact hq
      · rw [heq]
        simp only [List.length_append, List.length_cons, List.length_nil]
        omega
  | shutdown h => rw [(Shutdown_frame s).2.1]; exact hq
  | dialOk h hp => exact hq
  | dialFail h hp => exact hq
  | writeOk m q h hp hqe =>
      have hlen : s.queue.length = q.length + 1 := by rw [hqe]; rfl
      show q.length ≤ queueCapacity
      omega
  | writeFail m q h hp hqe =>
      have hlen : s.queue.length = q.length + 1 := by rw [hqe]; rfl
      show q.length ≤ queueCapacity
      omega
  | recvClosed h hp hqe hc => exact hq
  | tickOk h hp => exact hq
  | tickFail h hp => exact hq
  | drain m q h hp hqe =>
      have hlen : s.queue.length = q.length + 1 := by rw [hqe]; rfl
      show q.length ≤ queueCapacity
      omega
  | drainClosed h hp hqe hc => exact hq
  | backoffTimer h hp => exact hq

/-- No step breaks the FIFO invariant: the lines written on the current
connection followed by the lines still queued form a sublist of the
emission history. -/
lemma step_session_sublist {s : SinkState} {a : Act} {s' : SinkState} (hs : Step s a s')
    (h : (s.session ++ s.queue).Sublist s.history) :
    (s'.session ++ s'.queue).Sublist s'.history := by
  cases hs with
  | emit m hcr =>
      obtain ⟨-, -, -, -, -, hsess, -⟩ := pushMetric_fst_frame s m
      rw [hsess, pushMetric_fst_history]
      rcases pushMetric_fst_queue s m with heq | ⟨heq, -⟩
      · rw [heq]
        exact h.trans (List.sublist_append_left _ _)
      · rw [heq, ← List.append_assoc]
        exact h.append (List.Sublist.refl [m])
  | shutdown hcr =>
      obtain ⟨-, hq, -, -, -, hsess, -, hh⟩ := Shutdown_frame s
      rw [hq, hsess, hh]
      exact h
  | dialOk hcr hp =>
      exact ((List.nil_sublist s.session).append (List.Sublist.refl s.queue)).trans h
  | dialFail hcr hp => exact h
  | writeOk m q hcr hp hqe =>
      rw [hqe] at h
      simpa [List.append_assoc] using h
  | writeFail m q hcr hp hqe =>
      rw [hqe] at h
      exact (List.Sublist.append_left ((List.Sublist.refl q).cons m) s.session).trans h
  | recvClosed hcr hp hqe hc => exact h
  | tickOk hcr hp => exact h
  | tickFail hcr hp => exact h
  | drain m q hcr hp hqe =>
      rw [hqe] at h
      exact (List.Sublist.append_left ((List.Sublist.refl q).cons m) s.session).trans h
  | drainClosed hcr hp hqe hc => exact h
  | backoffTimer hcr hp => exact h

/-- A step that changes the dial counter is a connect attempt made by the
worker at its CONNECT label. -/
lemma step_dials {s : SinkState} {a : Act} {s' : SinkState} (hs : Step s a s')
    (hne : s'.dials ≠ s.dials) :
    s.phase = Phase.connecting ∧ (a = Act.dialOk ∨ a = Act.dialFail) := by
  cases hs with
  | emit m h => exact absurd (pushMetric_fst_frame s m).2.2.2.1 hne
  | shutdown h => exact absurd (Shutdown_frame s).2.2.2.1 hne
  | dialOk h hp => exact ⟨hp, Or.inl rfl⟩
  | dialFail h hp => exact ⟨hp, Or.inr rfl⟩
  | writeOk m q h hp hqe => exact absurd rfl hne
  | writeFail m q h hp hqe => exact absurd rfl hne
  | recvClosed h hp hqe hc => exact absurd rfl hne
  | tickOk h hp => exact absurd rfl hne
  | tickFail h hp => exact absurd rfl hne
  | drain m q h hp hqe => exact absurd rfl hne
  | drainClosed h hp hqe hc => exact absurd rfl hne
  | backoffTimer h hp => exact absurd rfl hne

/-- A step that moves the worker into the terminal phase is the
observation of the queue-closed signal. -/
lemma step_into_terminated {s : SinkState} {a : Act} {s' : SinkState} (hs : Step s a s')
    (ht : s'.phase = Phase.terminated) (hnt : s.phase ≠ Phase.terminated) :
    s.closed = true ∧ (a = Act.recvClosed ∨ a = Act.drainClosed) := by
  cases hs with
  | emit m h =>
      rw [(pushMetric_fst_frame s m).1] at ht
      exact absurd ht hnt
  | shutdown h =>
      rw [(Shutdown_frame s).1] at ht
      exact absurd ht hnt
  | dialOk h hp => simp at ht
  | dialFail h hp => simp at ht
  | writeOk m q h hp hqe => exact absurd ht hnt
  | writeFail m q h hp hqe => simp at ht
  | recvClosed h hp hqe hc => exact ⟨hc, Or.inl rfl⟩
  | tickOk h hp => exact absurd ht hnt
  | tickFail h hp => simp at ht
  | drain m q h hp hqe => exact absurd ht hnt
  | drainClosed h hp hqe hc => exact ⟨hc, Or.inr rfl⟩
  | backoffTimer h hp => simp at ht

/-- From the terminal phase the worker performs no network activity: no
step changes the wire, the dial counter or the writer buffer, and the
phase stays terminal. -/
lemma step_from_terminated {s : SinkState} {a : Act} {s' : SinkState} (hs : Step s a s')
    (ht : s.phase = Phase.terminated) :
    s'.phase = Phase.terminated ∧ s'.wire = s.wire ∧ s'.dials = s.dials ∧
      s'.buffer = s.buffer := by
  cases hs with
  | emit m h =>
      obtain ⟨hph, -, -, hd, hw, -, hb⟩ := pushMetric_fst_frame s m
      exact ⟨hph.trans ht, hw, hd, hb⟩
  | shutdown h =>
      obtain ⟨hph, -, -, hd, hw, -, hb, -⟩ := Shutdown_frame s
      exact ⟨hph.trans ht, hw, hd, hb⟩
  | dialOk h hp => exact absurd (hp.symm.trans ht) (by decide)
  | dialFail h hp => exact absurd (hp.symm.trans ht) (by decide)
  | writeOk m q h hp hqe => exact absurd (hp.symm.trans ht) (by decide)
  | writeFail m q h hp hqe => exact absurd (hp.symm.trans ht) (by decide)
  | recvClosed h hp hqe hc => exact absurd (hp.symm.trans ht) (by decide)
  | tickOk h hp => exact absurd (hp.symm.trans ht) (by decide)
  | tickFail h hp => exact absurd (hp.symm.trans ht) (by decide)
  | drain m q h hp hqe => exact absurd (hp.symm.trans ht) (by decide)
  | drainClosed h hp hqe hc => exact absurd (hp.symm.trans ht) (by decide)
  | backoffTimer h hp => exact absurd (hp.symm.trans ht) (by decide)

/-- The labels loop of `flattenKeyLabels` appends the label Values, in
order, after the key parts. -/
lemma foldl_labels_append (labels : List Label) (parts : List String) :
    labels.foldl (fun ps l => ps ++ [l.Value]) parts =
      parts ++ labels.map Label.Value := by
  induction labels generalizing parts with
  | nil => simp
  | cons l ls ih => simp [List.foldl_cons, ih, List.append_assoc]

/-- Every character produced by `digitChar` is an ASCII digit. -/
lemma isAsciiDigit_digitChar (d : Nat) : isAsciiDigit (digitChar d) = true := by
  unfold digitChar
  split <;> decide

/-- The fractional field always has exactly six characters. -/
lemma frac6_length (n : Nat) : (frac6 n).length = 6 := by
  simp [frac6, String.length]

/-- The fractional field consists of ASCII digits only. -/
lemma frac6_all_digits (n : Nat) : (frac6 n).data.all isAsciiDigit = true := by
  rw [List.all_eq_true]
  intro c hc
  simp only [frac6, List.mem_map] at hc
  obtain ⟨i, -, rfl⟩ := hc
  exact isAsciiDigit_digitChar _

/-- Appending strings is associative, by associativity of the underlying
character lists. -/
lemma string_append_assoc (a b c : String) : a ++ b ++ c = a ++ (b ++ c) := by
  cases a with | mk la =>
  cases b with | mk lb =>
  cases c with | mk lc =>
  show String.mk ((la ++ lb) ++ lc) = String.mk (la ++ (lb ++ lc))
  rw [List.append_assoc]

/-- Rendered values decompose as an integer field, a dot, and exactly six
ASCII-digit fractional characters. -/
lemma formatFloat6_decomp (q : ℚ) :
    ∃ ip fd : String, formatFloat6 q = ip ++ "." ++ fd ∧ fd.length = 6 ∧
      fd.data.all isAsciiDigit = true := by
  unfold formatFloat6 formatNonneg6
  split
  · refine ⟨"-" ++ toString ((roundHalfEven (-q * 1000000)).toNat / 1000000),
      frac6 ((roundHalfEven (-q * 1000000)).toNat % 1000000), ?_,
      frac6_length _, frac6_all_digits _⟩
    simp [String.append_assoc]
  · exact ⟨toString ((roundHalfEven (q * 1000000)).toNat / 1000000),
      frac6 ((roundHalfEven (q * 1000000)).toNat % 1000000), rfl,
      frac6_length _, frac6_all_digits _⟩

/-- C1: For every call to an emit operation the enqueue of the formatted
line never blocks and never returns an error to the caller: on a live
queue already holding its fixed capacity of 4096 items the line is
silently dropped, below capacity it is enqueued, and in every reachable
state the queue holds at most 4096 items. -/
theorem pushMetric_nonblocking_bounded :
    (∀ addr s, Reachable addr s → s.queue.length ≤ queueCapacity) ∧
    (∀ s m, s.queueNil = false → s.closed = false →
      queueCapacity ≤ s.queue.length →
      pushMetric s m = ({ s with history := s.history ++ [m] }, PushResult.dropped)) ∧
    (∀ s m, s.queueNil = false → s.closed = false →
      s.queue.length < queueCapacity →
      pushMetric s m =
        ({ s with queue := s.queue ++ [m], history := s.history ++ [m] },
          PushResult.enqueued)) ∧
    queueCapacity = 4096 := by
  refine ⟨?_, ?_, ?_, rfl⟩
  · exact reachable_invariant (fun s => s.queue.length ≤ queueCapacity)
      (fun addr => by simp [initState])
      (fun s a s' hs hq => step_queue_le hs hq)
  · intro s m h1 h2 h3
    have hnlt : ¬ s.queue.length < queueCapacity := by omega
    simp [pushMetric, h1, h2, hnlt]
  · intro s m h1 h2 h3
    simp [pushMetric, h1, h2, h3]

/-- Witness for C1: the bound at the initial state, and one concrete
enqueue on a fresh Sink. -/
theorem pushMetric_nonblocking_bounded_witness :
    (initState "127.0.0.1:8125").queue.length ≤ queueCapacity ∧
    pushMetric (initState "127.0.0.1:8125") "a.b:3.500000|g\n" =
      ({ initState "127.0.0.1:8125" with
          queue := (initState "127.0.0.1:8125").queue ++ ["a.b:3.500000|g\n"],
          history := (initState "127.0.0.1:8125").history ++ ["a.b:3.500000|g\n"] },
        PushResult.enqueued) :=
  ⟨pushMetric_nonblocking_bounded.1 "127.0.0.1:8125" _ Relation.ReflTransGen.refl,
   pushMetric_nonblocking_bounded.2.2.1 _ _ rfl rfl (by decide)⟩

/-- C2: Transport errors — connect, write and flush failures — are
handled internally by moving the worker to BACKOFF without crashing;
from BACKOFF the timer expiry retries CONNECTING; and the only steps that
reach the terminal phase observe the queue-closed signal. -/
theorem transportError_backoff_retry_only_close_terminates :
    (∀ s s', Step s Act.dialFail s' →
      s'.phase = Phase.backoff ∧ s'.crashed = false) ∧
    (∀ s s' m, Step s (Act.writeFail m) s' →
      s'.phase = Phase.backoff ∧ s'.crashed = false) ∧
    (∀ s s', Step s Act.tickFail s' →
      s'.phase = Phase.backoff ∧ s'.crashed = false) ∧
    (∀ s, s.crashed = false → s.phase = Phase.backoff →
      Step s Act.backoffTimer { s with phase := Phase.connecting }) ∧
    (∀ s a s', Step s a s' → s'.phase = Phase.terminated →
      s.phase ≠ Phase.terminated →
      s.closed = true ∧ (a = Act.recvClosed ∨ a = Act.drainClosed)) := by
  refine ⟨?_, ?_, ?_, ?_, ?_⟩
  · intro s s' hs
    cases hs with
    | dialFail h hp => exact ⟨rfl, h⟩
  · intro s s' m hs
    cases hs with
    | writeFail m q h hp hqe => exact ⟨rfl, h⟩
  · intro s s' hs
    cases hs with
    | tickFail h hp => exact ⟨rfl, h⟩
  · intro s h hp
    exact Step.backoffTimer s h hp
  · intro s a s' hs ht hnt
    exact step_into_terminated hs ht hnt

/-- Witness for C2: the backoff-to-connecting retry on a concrete state. -/
theorem transportError_backoff_retry_only_close_terminates_witness :
    Step { initState "stats.local:8125" with phase := Phase.backoff }
      Act.backoffTimer
      { initState "stats.local:8125" with phase := Phase.connecting } :=
  transportError_backoff_retry_only_close_terminates.2.2.2.1 _ rfl rfl

/-- C3 (refuted — code bug): after `Shutdown` completes, an emit
operation panics the caller (`pushMetric` performs a select-send on the
closed channel), and the worker can still write queued bytes to the
transport: from the post-`Shutdown` state a dial, a write and a flush
deliver the previously queued line to the wire. -/
theorem emit_after_shutdown_panics_and_bytes_still_flow :
    (pushMetric (Shutdown (initState "127.0.0.1:7523")) (SetGaugeLine ["a"] 1)).2 =
        PushResult.panicked ∧
    (pushMetric (Shutdown (initState "127.0.0.1:7523")) (SetGaugeLine ["a"] 1)).1.crashed =
        true ∧
    (Shutdown (pushMetric (initState "127.0.0.1:7523") (SetGaugeLine ["a"] 1)).1).wire
        = [] ∧
    (∃ sEnd, Relation.ReflTransGen StepAny
        (Shutdown (pushMetric (initState "127.0.0.1:7523") (SetGaugeLine ["a"] 1)).1)
        sEnd ∧
      sEnd.wire = [SetGaugeLine ["a"] 1]) := by
  refine ⟨rfl, rfl, rfl, ?_⟩
  exact ⟨_, Relation.ReflTransGen.head ⟨Act.dialOk, Step.dialOk _ rfl rfl⟩
      (Relation.ReflTransGen.head ⟨Act.writeOk _, Step.writeOk _ _ [] rfl rfl rfl⟩
        (Relation.ReflTransGen.head ⟨Act.tickOk, Step.tickOk _ rfl rfl⟩
          Relation.ReflTransGen.refl)), rfl⟩

/-- C4: During BACKOFF the fixed wait is 5 seconds; every line arriving
from the queue is read and discarded — removed from the queue head,
never buffered, never written to the wire — and the timer expiry moves
the worker back to CONNECTING. -/
theorem backoff_drains_then_reconnects :
    (∀ s m q, s.crashed = false → s.phase = Phase.backoff → s.queue = m :: q →
      Step s (Act.drain m) { s with queue := q }) ∧
    (∀ s s' m, Step s (Act.drain m) s' →
      s.queue = m :: s'.queue ∧ s'.phase = Phase.backoff ∧ s'.buffer = s.buffer ∧
        s'.session = s.session ∧ s'.wire = s.wire) ∧
    (∀ s s', Step s Act.backoffTimer s' →
      s.phase = Phase.backoff ∧ s'.phase = Phase.connecting) ∧
    backoffWaitSeconds = 5 := by
  refine ⟨?_, ?_, ?_, rfl⟩
  · intro s m q h hp hq
    exact Step.drain s m q h hp hq
  · intro s s' m hs
    cases hs with
    | drain m q h hp hqe => exact ⟨hqe, hp, rfl, rfl, rfl⟩
  · intro s s' hs
    cases hs with
    | backoffTimer h hp => exact ⟨hp, rfl⟩

/-- Witness for C4: draining one concrete queued line during backoff. -/
theorem backoff_drains_then_reconnects_witness :
    Step { initState "s:1" with phase := Phase.backoff, queue := ["x:1.000000|c\n"] }
      (Act.drain "x:1.000000|c\n")
      { initState "s:1" with phase := Phase.backoff, queue := ([] : List String) } :=
  backoff_drains_then_reconnects.1 _ _ [] rfl rfl rfl

/-- C5: Observing the queue-closed signal — while STREAMING or in
BACKOFF — moves the worker to TERMINATED and releases the queue
reference, and from TERMINATED no step performs network activity: the
wire, the dial counter and the buffer never change again and the phase
stays terminal. -/
theorem queue_closed_terminates :
    (∀ s, s.crashed = false → s.phase = Phase.streaming → s.queue = [] →
      s.closed = true →
      Step s Act.recvClosed { s with phase := Phase.terminated, queueNil := true }) ∧
    (∀ s, s.crashed = false → s.phase = Phase.backoff → s.queue = [] →
      s.closed = true →
      Step s Act.drainClosed { s with phase := Phase.terminated, queueNil := true }) ∧
    (∀ s s', Step s Act.recvClosed s' →
      s'.phase = Phase.terminated ∧ s'.queueNil = true) ∧
    (∀ s s', Step s Act.drainClosed s' →
      s'.phase = Phase.terminated ∧ s'.queueNil = true) ∧
    (∀ s a s', Step s a s' → s.phase = Phase.terminated →
      s'.phase = Phase.terminated ∧ s'.wire = s.wire ∧ s'.dials = s.dials ∧
        s'.buffer = s.buffer) := by
  refine ⟨?_, ?_, ?_, ?_, ?_⟩
  · exact fun s h hp hq hc => Step.recvClosed s h hp hq hc
  · exact fun s h hp hq hc => Step.drainClosed s h hp hq hc
  · intro s s' hs
    cases hs with
    | recvClosed h hp hq hc => exact ⟨rfl, rfl⟩
  · intro s s' hs
    cases hs with
    | drainClosed h hp hq hc => exact ⟨rfl, rfl⟩
  · intro s a s' hs ht
    exact step_from_terminated hs ht

/-- Witness for C5: the queue-closed observation on a concrete streaming
state. -/
theorem queue_closed_terminates_witness :
    Step { initState "s:2" with phase := Phase.streaming, closed := true }
      Act.recvClosed
      { initState "s:2" with
          phase := Phase.terminated
          closed := true
          queueNil := true } :=
  queue_closed_terminates.1 _ rfl rfl rfl rfl

/-- C6: Each emit operation renders exactly
flattened-key, colon, value, pipe, kind suffix, newline — suffix g, c, ms
or kv — with the value in fixed point with six fractional digits; the
gauge and labelled counter examples yield exactly the claimed bytes. -/
theorem emit_line_wire_format :
    SetGaugeLine ["a", "b"] (7/2) = "a.b:3.500000|g\n" ∧
    IncrCounterWithLabelsLine ["req"] 1 [{ Name := "", Value := "200" }] =
      "req.200:1.000000|c\n" ∧
    (∀ key val labels,
      SetGaugeLine key val = flattenKey key ++ ":" ++ formatFloat6 val ++ "|g\n" ∧
      SetGaugeWithLabelsLine key val labels =
        flattenKeyLabels key labels ++ ":" ++ formatFloat6 val ++ "|g\n" ∧
      IncrCounterLine key val = flattenKey key ++ ":" ++ formatFloat6 val ++ "|c\n" ∧
      IncrCounterWithLabelsLine key val labels =
        flattenKeyLabels key labels ++ ":" ++ formatFloat6 val ++ "|c\n" ∧
      AddSampleLine key val = flattenKey key ++ ":" ++ formatFloat6 val ++ "|ms\n" ∧
      AddSampleWithLabelsLine key val labels =
        flattenKeyLabels key labels ++ ":" ++ formatFloat6 val ++ "|ms\n" ∧
      EmitKeyLine key val = flattenKey key ++ ":" ++ formatFloat6 val ++ "|kv\n") ∧
    (∀ val : ℚ, ∃ ip fd : String, formatFloat6 val = ip ++ "." ++ fd ∧
      fd.length = 6 ∧ fd.data.all isAsciiDigit = true) := by
  have hlt : ¬ ((7/2 : ℚ) < 0) := by norm_num
  have hround : roundHalfEven ((7/2 : ℚ) * 1000000) = 3500000 := by
    simp only [roundHalfEven]
    norm_num
  have hfmt : formatFloat6 (7/2) = "3.500000" := by
    simp only [formatFloat6]
    rw [if_neg hlt]
    simp only [formatNonneg6]
    rw [hround]
    decide
  have hlt1 : ¬ ((1 : ℚ) < 0) := by norm_num
  have hround1 : roundHalfEven ((1 : ℚ) * 1000000) = 1000000 := by
    simp only [roundHalfEven]
    norm_num
  have hfmt1 : formatFloat6 1 = "1.000000" := by
    simp only [formatFloat6]
    rw [if_neg hlt1]
    simp only [formatNonneg6]
    rw [hround1]
    decide
  refine ⟨?_, ?_, ?_, formatFloat6_decomp⟩
  · simp only [SetGaugeLine, sprintfMetric]
    rw [hfmt]
    decide
  · simp only [IncrCounterWithLabelsLine, sprintfMetric]
    rw [hfmt1]
    decide
  · intro key val labels
    rw [show ("|g\n" : String) = "|" ++ "g" ++ "\n" from rfl,
      show ("|c\n" : String) = "|" ++ "c" ++ "\n" from rfl,
      show ("|ms\n" : String) = "|" ++ "ms" ++ "\n" from rfl,
      show ("|kv\n" : String) = "|" ++ "kv" ++ "\n" from rfl]
    refine ⟨?_, ?_, ?_, ?_, ?_, ?_, ?_⟩ <;>
      simp [SetGaugeLine, SetGaugeWithLabelsLine, IncrCounterLine,
        IncrCounterWithLabelsLine, AddSampleLine, AddSampleWithLabelsLine,
        EmitKeyLine, sprintfMetric, string_append_assoc]

/-- C7: Flattening appends each label Value as a trailing segment, joins
all segments with a dot, and replaces every colon and every space with an
underscore; on the concrete key the claimed string results. -/
theorem flatten_key_labels_sanitize :
    (∀ parts labels, flattenKeyLabels parts labels =
      flattenKey (parts ++ labels.map Label.Value)) ∧
    (∀ parts, (flattenKey parts).data =
      (String.intercalate "." parts).data.map sanitizeChar) ∧
    (∀ c, sanitizeChar c = if c = ':' ∨ c = ' ' then '_' else c) ∧
    flattenKey ["foo bar", "baz:qux"] = "foo_bar.baz_qux" := by
  refine ⟨?_, ?_, ?_, by decide⟩
  · intro parts labels
    rw [flattenKeyLabels, foldl_labels_append]
  · intro parts
    rfl
  · intro c
    by_cases h1 : c = ':'
    · simp [sanitizeChar, h1]
    · by_cases h2 : c = ' '
      · simp [sanitizeChar, h1, h2]
      · simp [sanitizeChar, h1, h2]

/-- C8: In every reachable state the lines written on the current
streaming connection, followed by the lines still queued, form a sublist
of the emission history: within one session lines are delivered in
enqueue order, never duplicated and never reordered; each successful
write takes the queue head and appends it to the session and the ordered
writer buffer. -/
theorem streaming_fifo_no_dup :
    (∀ addr s, Reachable addr s → (s.session ++ s.queue).Sublist s.history) ∧
    (∀ s s' m, Step s (Act.writeOk m) s' →
      s.queue = m :: s'.queue ∧ s'.session = s.session ++ [m] ∧
        s'.buffer = s.buffer ++ [m]) := by
  refine ⟨?_, ?_⟩
  · exact reachable_invariant (fun s => (s.session ++ s.queue).Sublist s.history)
      (fun addr => by simp [initState])
      (fun s a s' hs h => step_session_sublist hs h)
  · intro s s' m hs
    cases hs with
    | writeOk m q h hp hqe => exact ⟨hqe, rfl, rfl⟩

/-- Witness for C8 at the initial state. -/
theorem streaming_fifo_no_dup_witness :
    ((initState "w:1").session ++ (initState "w:1").queue).Sublist
      (initState "w:1").history :=
  streaming_fifo_no_dup.1 "w:1" _ Relation.ReflTransGen.refl

/-- C9: `Shutdown` is an exactly-once operation: on a live Sink it closes
the queue without crashing, and a second `Shutdown` — a close of an
already-closed (or already-released) queue — is fatal rather than a
no-op. -/
theorem double_shutdown_fatal :
    (∀ s, s.queueNil = false → s.closed = false →
      (Shutdown s).closed = true ∧ (Shutdown s).crashed = s.crashed ∧
        (Shutdown (Shutdown s)).crashed = true) ∧
    (∀ s, s.closed = true → (Shutdown s).crashed = true) := by
  refine ⟨?_, ?_⟩
  · intro s h1 h2
    have hfirst : Shutdown s = { s with closed := true } := by
      simp [Shutdown, h1, h2]
    refine ⟨by rw [hfirst], by rw [hfirst], ?_⟩
    rw [hfirst]
    simp [Shutdown]
  · intro s h
    simp [Shutdown, h]

/-- Witness for C9 on a fresh Sink: the first `Shutdown` closes the
queue, the second one panics. -/
theorem double_shutdown_fatal_witness :
    (Shutdown (initState "q:9")).closed = true ∧
    (Shutdown (Shutdown (initState "q:9"))).crashed = true :=
  ⟨(double_shutdown_fatal.1 (initState "q:9") rfl rfl).1,
   (double_shutdown_fatal.1 (initState "q:9") rfl rfl).2.2⟩

/-- C10: For every address `NewSink` returns a Sink and a nil error; the
fresh state has performed no dial and sits at the worker CONNECT label
with nothing on the wire, and the only steps that change the dial counter
are the worker connect attempts from CONNECTING. -/
theorem NewSink_total_no_dial_at_construction :
    (∀ addr, NewSink addr = (initState addr, none) ∧
      (initState addr).addr = addr ∧ (initState addr).dials = 0 ∧
      (initState addr).phase = Phase.connecting ∧ (initState addr).wire = []) ∧
    (∀ s a s', Step s a s' → s'.dials ≠ s.dials →
      s.phase = Phase.connecting ∧ (a = Act.dialOk ∨ a = Act.dialFail)) :=
  ⟨fun _ => ⟨rfl, rfl, rfl, rfl, rfl⟩, fun _ _ _ hs hne => step_dials hs hne⟩

/-- Witness for C10: the first dial is a worker connect step from the
CONNECT label. -/
theorem NewSink_total_no_dial_at_construction_witness :
    (initState "h:1").phase = Phase.connecting ∧
      (Act.dialOk = Act.dialOk ∨ Act.dialOk = Act.dialFail) :=
  NewSink_total_no_dial_at_construction.2 (initState "h:1") Act.dialOk
    { initState "h:1" with
        phase := Phase.streaming
        session := []
        buffer := []
        dials := (initState "h:1").dials + 1 }
    (Step.dialOk _ rfl rfl) (by decide)

end Statsite
